import Mathlib

/-!
Verification of the AR7 (TI avalanche) peripheral model in hw/ar7.c.

The development shallowly embeds the C device model in Lean:

* register banks become functions from byte offsets (or word indices) to
  natural numbers, kept below 2^32 by the write primitives, mirroring the
  little-endian uint32 stores of reg_write / reg_set / reg_clear / reg_inc;
* guest physical memory becomes a function from byte addresses to byte
  values; cpu_physical_memory_read / cpu_physical_memory_write and stl_phys
  become readU32 / writeU32 / readBytes / writeBytes;
* side calls of the handlers (qemu_send_packet, ar7_irq from the CPMAC
  paths) are recorded as event lists in the state, so that a theorem can
  talk about which frames were handed to the backend and which interrupt
  lines were pulsed;
* the unbounded TX DMA loop of ar7_cpmac_write (a while loop with a goto)
  is modelled with explicit fuel; running out of fuel and a failed C
  assert are distinguished error outcomes.

Each function keeps the name of the C function it embeds.
-/

/-- Word size modulus of the 32-bit device registers (2^32). -/
def U32MOD : Nat := 4294967296

/-- Byte modulus for guest RAM cells. -/
def BYTEMOD : Nat := 256

/-- reg_read from ar7.c: little-endian aligned 32-bit load from a register
bank.  Banks are modelled as functions from (aligned) byte offset or word
index to the stored 32-bit value, so the load is function application. -/
def reg_read (r : Nat → Nat) (off : Nat) : Nat := r off

/-- reg_write from ar7.c: store a uint32 value into a register bank; the
modulus models the uint32_t truncation of the C store. -/
def reg_write (r : Nat → Nat) (off v : Nat) : Nat → Nat :=
  fun o => if o = off then v % U32MOD else r o

/-- reg_set from ar7.c: OR a mask into a register. -/
def reg_set (r : Nat → Nat) (off v : Nat) : Nat → Nat :=
  reg_write r off (reg_read r off ||| v)

/-- reg_clear from ar7.c: AND the complement of a 32-bit mask into a
register (x AND NOT v on 32 bits; NOT is XOR with 0xffffffff). -/
def reg_clear (r : Nat → Nat) (off v : Nat) : Nat → Nat :=
  reg_write r off (reg_read r off &&& (4294967295 ^^^ v % U32MOD))

/-- reg_inc from ar7.c: increment a register with uint32 wrap-around. -/
def reg_inc (r : Nat → Nat) (off : Nat) : Nat → Nat :=
  reg_write r off (reg_read r off + 1)

/-! Guest physical memory. -/

/-- Little-endian 32-bit load from guest memory (le32_to_cpu of four RAM
bytes); each cell is reduced to a byte as guest RAM holds bytes. -/
def readU32 (mem : Nat → Nat) (a : Nat) : Nat :=
  mem a % BYTEMOD + 256 * (mem (a+1) % BYTEMOD) + 65536 * (mem (a+2) % BYTEMOD)
    + 16777216 * (mem (a+3) % BYTEMOD)

/-- Little-endian 32-bit store to guest memory (stl_phys / cpu_to_le32). -/
def writeU32 (mem : Nat → Nat) (a v : Nat) : Nat → Nat :=
  fun b =>
    if b = a then v % BYTEMOD
    else if b = a + 1 then v / 256 % BYTEMOD
    else if b = a + 2 then v / 65536 % BYTEMOD
    else if b = a + 3 then v / 16777216 % BYTEMOD
    else mem b

/-- Read n bytes of guest memory starting at address a
(cpu_physical_memory_read into a byte buffer). -/
def readBytes (mem : Nat → Nat) : Nat → Nat → List Nat
  | _, 0 => []
  | a, n+1 => mem a % BYTEMOD :: readBytes mem (a+1) n

/-- Write a byte list to guest memory starting at address a
(cpu_physical_memory_write from a byte buffer). -/
def writeBytes : (Nat → Nat) → Nat → List Nat → (Nat → Nat)
  | m, _, [] => m
  | m, a, x :: xs => writeBytes (fun b => if b = a then x % BYTEMOD else m b) (a+1) xs

/-!
Interrupt intake and interrupt controller (ar7_irq, ar7_intc_write,
ar7_intc_read from ar7.c).  The state gathers the pieces of the global
device/CPU state those functions touch: the two interrupt masks
av.intmask, the INTC register file av.intc (indexed by word index), the
CP0 Cause register of the MIPS CPU, and a flag for the pending
CPU_INTERRUPT_HARD level driven via cpu_interrupt / cpu_reset_interrupt.
-/

structure IrqEnv where
  intmask0 : Nat
  intmask1 : Nat
  intc : Nat → Nat
  cause : Nat
  hwirq : Bool

/-- ar7_irq from ar7.c.  For the supported lines 15, 16, 27, 41: on a
nonzero level, when the channel (line minus 8) is below 32 and its bit is
set in intmask[0], latch (channel shifted left 16) OR channel into INTC
word 16, set bit 0x400 in CP0 Cause and raise the hard interrupt; on a
zero level clear all three.  Other lines only log. -/
def ar7_irq (s : IrqEnv) (irq_num level : Nat) : IrqEnv :=
  if irq_num = 15 ∨ irq_num = 16 ∨ irq_num = 27 ∨ irq_num = 41 then
    if level ≠ 0 then
      let channel := irq_num - 8
      if channel < 32 then
        if s.intmask0.testBit channel = true then
          { s with intc := reg_write s.intc 16 (((irq_num - 8) <<< 16) ||| channel),
                   cause := s.cause ||| 1024,
                   hwirq := true }
        else s
      else s
    else
      { s with intc := reg_write s.intc 16 0,
               cause := s.cause &&& 4294966271,
               hwirq := false }
  else s

/-- ar7_intc_write from ar7.c: store the value in the INTC word, and for
the enable-set words 8 and 9 OR it into intmask[index AND 1]; for the
enable-clear words 12 and 13 AND its complement into intmask[index AND 1].
The masks are uint32, hence the modulus. -/
def ar7_intc_write (s : IrqEnv) (index val : Nat) : IrqEnv :=
  let s1 : IrqEnv := { s with intc := reg_write s.intc index val }
  if index = 8 then { s1 with intmask0 := (s1.intmask0 ||| val) % U32MOD }
  else if index = 9 then { s1 with intmask1 := (s1.intmask1 ||| val) % U32MOD }
  else if index = 12 then
    { s1 with intmask0 := s1.intmask0 &&& (4294967295 ^^^ val % U32MOD) }
  else if index = 13 then
    { s1 with intmask1 := s1.intmask1 &&& (4294967295 ^^^ val % U32MOD) }
  else s1

/-- ar7_intc_read from ar7.c: a plain load of the INTC word. -/
def ar7_intc_read (s : IrqEnv) (index : Nat) : Nat := s.intc index

/-- Initial interrupt state: the static initializer of the global device
struct zeroes intmask and the INTC bank, and the CPU starts with no
pending hard interrupt. -/
def irqInit : IrqEnv :=
  { intmask0 := 0, intmask1 := 0, intc := fun _ => 0, cause := 0, hwirq := false }

/-!
CPMAC (Ethernet MAC) emulation: ar7_cpmac_read, ar7_cpmac_write and
ar7_nic_receive from ar7.c.  One CpmacEnv models the slice of the global
state one CPMAC instance and its callbacks touch: the 2 KiB register
bank (function from byte offset to uint32), guest physical memory, the
per-instance NIC record av.nic[index] (MAC bytes and whether a VLAN
backend is bound, i.e. vc is nonnull), plus two event lists recording
the frames handed to qemu_send_packet and the (line, level) pulses the
handlers feed into ar7_irq.
-/

structure NicSt where
  phys : List Nat
  vcBound : Bool

structure CpmacEnv where
  regs : Nat → Nat
  mem : Nat → Nat
  nic : NicSt
  sent : List (List Nat)
  irqs : List (Nat × Nat)

/-- Outcomes of the TX DMA walk: a C assert tripping, or the model fuel
(the C loop is unbounded) running out. -/
inductive TxErr where
  | assertFail : TxErr
  | outOfFuel : TxErr
deriving DecidableEq

/-- cpmac_interrupt from ar7.c: interrupt line 27 for instance 0 and 41
for instance 1. -/
def cpmac_interrupt (index : Nat) : Nat := if index = 0 then 27 else 41

/-- Channel computation of the TX_INTMASK_SET write path of
ar7_cpmac_write: starting from 0, while the value is not 1, increment
the channel and halve the value.  For nonzero input this is the index of
the highest set bit. -/
def tx_int_channel (v : Nat) : Nat :=
  if v < 2 then 0 else tx_int_channel (v / 2) + 1
termination_by v
decreasing_by simp_wf; omega

/-- Inner TX descriptor walk of ar7_cpmac_write (the sendloop label):
read the 16-byte descriptor at p, append its payload to the frame under
assembly, check the asserted invariants (accumulated length at most
1514, length field equal to the low 16 mode bits, SOF, EOF and OWNERSHIP
set), clear OWNERSHIP in guest memory, and loop to the next descriptor
while EOQ is set; with EOQ clear the frame is complete.  Returns the
updated memory, the frame bytes and the last descriptor's next pointer. -/
def txInner : (Nat → Nat) → Nat → Nat → List Nat →
    Except TxErr ((Nat → Nat) × List Nat × Nat)
  | _, 0, _, _ => Except.error TxErr.outOfFuel
  | mem, fuel+1, p, buffer =>
    let nxt := readU32 mem p
    let buff := readU32 mem (p+4)
    let curlen := readU32 mem (p+8)
    let mode := readU32 mem (p+12)
    if buffer.length + curlen ≤ 1514 then
      let buffer2 := buffer ++ readBytes mem buff curlen
      if (mode &&& 65535) = curlen ∧ mode.testBit 31 = true ∧
          mode.testBit 30 = true ∧ mode.testBit 29 = true then
        let mode2 := mode &&& 3758096383
        let mem2 := writeU32 mem (p+12) mode2
        if mode2.testBit 28 = true then txInner mem2 fuel nxt buffer2
        else Except.ok (mem2, buffer2, nxt)
      else Except.error TxErr.assertFail
    else Except.error TxErr.assertFail

/-- Outer TX loop of ar7_cpmac_write for a TXc_HDP write: while the
descriptor pointer is nonzero, assemble one frame with txInner; then, if
a backend is bound, hand the frame over, bump TXGOODFRAMES (offset
0x234), OR TX_INT_OR plus the channel into MAC_IN_VECTOR (offset 0x180)
and pulse the CPMAC interrupt line; continue at the last descriptor's
next pointer. -/
def txOuter : CpmacEnv → Nat → Nat → Nat → Nat → Except TxErr CpmacEnv
  | _, 0, _, _, _ => Except.error TxErr.outOfFuel
  | e, fuel+1, index, channel, p =>
    if p = 0 then Except.ok e
    else
      match txInner e.mem (fuel+1) p [] with
      | Except.error err => Except.error err
      | Except.ok (mem2, frame, nxt) =>
        let e2 : CpmacEnv := { e with mem := mem2 }
        let e3 : CpmacEnv :=
          if e.nic.vcBound then
            { e2 with sent := e2.sent ++ [frame],
                      regs := reg_set (reg_inc e2.regs 564) 384 (65536 + channel),
                      irqs := e2.irqs ++ [(cpmac_interrupt index, 1)] }
          else e2
        txOuter e3 fuel index channel nxt

/-- Byte k of the little-endian uint32 stored in a register bank word
(the C code indexes the byte array of the bank directly). -/
def regByte (r : Nat → Nat) (off k : Nat) : Nat := r off / 256 ^ k % 256

/-- ar7_cpmac_write from ar7.c.  The raw value is stored in the bank
first, then the offset is dispatched: TX_INTMASK_SET (0x178) ORs
TX_INT_OR plus the highest set bit of the value into MAC_IN_VECTOR and
pulses the interrupt line; MACADDRHI (0x1d4) latches the six MAC bytes;
a statistics write (0x200..0x28c) of 0xffffffff clears the register and
any other value only logs; a TXc_HDP write (0x600..0x61c) runs the TX
DMA loop; an RXc_HDP write (0x620..0x63c) only reads the descriptor for
logging.  Everything else is a plain store. -/
def ar7_cpmac_write (fuel : Nat) (e : CpmacEnv) (index offset val : Nat) :
    Except TxErr CpmacEnv :=
  let e1 : CpmacEnv := { e with regs := reg_write e.regs offset val }
  if offset = 256 then Except.ok e1
  else if offset = 268 then Except.ok e1
  else if offset = 376 then
    (if val ≠ 0 then
      Except.ok { e1 with
        regs := reg_set e1.regs 384 (65536 + tx_int_channel val),
        irqs := e1.irqs ++ [(cpmac_interrupt index, 1)] }
     else Except.ok e1)
  else if offset = 468 then
    Except.ok { e1 with nic := { e1.nic with phys :=
      [regByte e1.regs 468 0, regByte e1.regs 468 1, regByte e1.regs 468 2,
        regByte e1.regs 468 3, regByte e1.regs 464 0, regByte e1.regs 432 0] } }
  else if 512 ≤ offset ∧ offset ≤ 652 then
    (if val = 4294967295 then Except.ok { e1 with regs := reg_write e1.regs offset 0 }
     else Except.ok e1)
  else if 1536 ≤ offset ∧ offset ≤ 1564 then
    txOuter e1 fuel index ((offset - 1536) / 4) val
  else if 1568 ≤ offset ∧ offset ≤ 1596 then Except.ok e1
  else Except.ok e1

/-- ar7_cpmac_read from ar7.c: a plain load, except that reading
MAC_IN_VECTOR (offset 0x180) zeroes the register after the load. -/
def ar7_cpmac_read (e : CpmacEnv) (offset : Nat) : Nat × CpmacEnv :=
  let val := reg_read e.regs offset
  if offset = 384 then (val, { e with regs := reg_write e.regs 384 0 })
  else (val, e)

/-- ar7_nic_receive from ar7.c.  Classify the frame (broadcast,
multicast, own address or other) and bump the matching counter, bump the
under/oversize counters, always bump RXGOODFRAMES, then: with RX0_HDP
zero drop the frame; otherwise read the descriptor at RX0_HDP and, when
its OWNERSHIP bit is set, copy the payload to the descriptor's buffer,
write the descriptor back with length = size and mode = (old mode
without OWNERSHIP) OR the size OR SOF OR EOF (OR EOQ when next is zero),
advance RX0_HDP to next, OR RX_INT_OR into MAC_IN_VECTOR and pulse the
interrupt line; when OWNERSHIP is clear only log.  The statistics block
at the top of the C function is factored out as rxCounters. -/
def rxCounters (regs : Nat → Nat) (buf : List Nat) : Nat → Nat :=
  let r1 :=
    if buf.take 6 = [255, 255, 255, 255, 255, 255] then reg_inc regs 516
    else if (buf.headD 0).testBit 0 = true then reg_inc regs 520
    else regs
  let r2 :=
    if buf.length < 64 then reg_inc r1 544
    else if buf.length > 1514 then reg_inc r1 536
    else r1
  reg_inc r2 512

def ar7_nic_receive (e : CpmacEnv) (index : Nat) (buf : List Nat) : CpmacEnv :=
  let size := buf.length
  let r3 := rxCounters e.regs buf
  let hdp := reg_read r3 1568
  if hdp = 0 then { e with regs := r3 }
  else
    let nxt := readU32 e.mem hdp
    let addr := readU32 e.mem (hdp+4)
    let mode := readU32 e.mem (hdp+12)
    if mode.testBit 29 = true then
      let mode1 := mode &&& 3758096383
      let mode2 := mode1 ||| (size &&& 65535)
      let mode3 := mode2 ||| 2147483648 ||| 1073741824
      let mode4 := if nxt = 0 then mode3 ||| 268435456 else mode3
      let mem1 := writeBytes e.mem addr buf
      let mem2 := writeU32 (writeU32 (writeU32 (writeU32 mem1 hdp nxt)
        (hdp+4) addr) (hdp+8) size) (hdp+12) mode4
      { e with regs := reg_set (reg_write r3 1568 nxt) 384 131072,
               mem := mem2,
               irqs := e.irqs ++ [(cpmac_interrupt index, 1)] }
    else { e with regs := r3 }

/-- A fresh CPMAC environment: zeroed register bank and guest memory, a
bound backend, no recorded events. -/
def cpmacInit : CpmacEnv :=
  { regs := fun _ => 0, mem := fun _ => 0,
    nic := { phys := [0, 0, 0, 0, 0, 0], vcBound := true },
    sent := [], irqs := [] }

/-!
Descriptor chains for the TX DMA theorem.  A TxSpec records the guest
address of one 16-byte transmit descriptor together with the buffer
pointer, length and mode fields stored there; wfChain states that a list
of such descriptors is laid out in memory as a chain (each next field
pointing at the following descriptor, 0 at the end) whose every
descriptor carries SOF, EOF and OWNERSHIP, has EOQ clear, has a length
field equal to the low 16 mode bits and a frame of at most 1514 bytes;
chainSep states the blocks and buffers do not overlap.
-/

structure TxSpec where
  addr : Nat
  buff : Nat
  len : Nat
  mode : Nat

def chainNext : List TxSpec → Nat
  | [] => 0
  | d :: _ => d.addr

def wfDesc (mem : Nat → Nat) (d : TxSpec) (nxt : Nat) : Prop :=
  d.addr ≠ 0 ∧
  readU32 mem d.addr = nxt ∧
  readU32 mem (d.addr+4) = d.buff ∧
  readU32 mem (d.addr+8) = d.len ∧
  readU32 mem (d.addr+12) = d.mode ∧
  (d.mode &&& 65535) = d.len ∧
  d.mode.testBit 31 = true ∧ d.mode.testBit 30 = true ∧
  d.mode.testBit 29 = true ∧ d.mode.testBit 28 = false ∧
  d.len ≤ 1514

def wfChain (mem : Nat → Nat) : List TxSpec → Prop
  | [] => True
  | d :: rest => wfDesc mem d (chainNext rest) ∧ wfChain mem rest

def sepFrom (d : TxSpec) (rest : List TxSpec) : Prop :=
  ∀ d2 ∈ rest, (d.addr + 16 ≤ d2.addr ∨ d2.addr + 16 ≤ d.addr) ∧
    (d.addr + 16 ≤ d2.buff ∨ d2.buff + d2.len ≤ d.addr)

def chainSep : List TxSpec → Prop
  | [] => True
  | d :: rest => sepFrom d rest ∧ chainSep rest

/-- Memory after the TX walk: the OWNERSHIP bit of every descriptor mode
word has been cleared in place, in chain order. -/
def finalMem : List TxSpec → (Nat → Nat) → (Nat → Nat)
  | [], mem => mem
  | d :: rest, mem => finalMem rest (writeU32 mem (d.addr+12) (d.mode &&& 3758096383))

/-!
Watchdog (ar7_wdt_write from ar7.c).  The eight uint32 words of the
wdtimer_t overlay, as record fields; byte offsets 0, 4, ..., 28.
-/

structure WdtState where
  kick_lock : Nat
  kick : Nat
  change_lock : Nat
  change : Nat
  disable_lock : Nat
  disable : Nat
  prescale_lock : Nat
  prescale : Nat

/-- wd_val from ar7.c: uint16 arithmetic ((val AND NOT 3) OR bits); the
stage lives in the low two bits. -/
def wd_val (v bits : Nat) : Nat := ((v % 65536) &&& 65532) ||| bits

/-- ar7_wdt_write from ar7.c.  Lock registers advance their stage only on
the exact magic values; every other lock write and every write to a value
register (kick, change, disable, prescale) only logs: the C code checks
the paired lock against the fully-unlocked pattern but changes no state
in either case (the action itself is marked MISSING). -/
def ar7_wdt_write (s : WdtState) (offset val : Nat) : WdtState :=
  if offset = 0 then
    (if val = 21845 then { s with kick_lock := wd_val val 1 }
     else if val = 43690 then { s with kick_lock := wd_val val 3 }
     else s)
  else if offset = 4 then s
  else if offset = 8 then
    (if val = 26214 then { s with change_lock := wd_val val 1 }
     else if val = 48059 then { s with change_lock := wd_val val 3 }
     else s)
  else if offset = 12 then s
  else if offset = 16 then
    (if val = 30583 then { s with disable_lock := wd_val val 1 }
     else if val = 52428 then { s with disable_lock := wd_val val 2 }
     else if val = 56797 then { s with disable_lock := wd_val val 3 }
     else s)
  else if offset = 20 then s
  else if offset = 24 then
    (if val = 23130 then { s with prescale_lock := wd_val val 1 }
     else if val = 42405 then { s with prescale_lock := wd_val val 3 }
     else s)
  else if offset = 28 then s
  else s

/-!
VLYNQ (ar7_vlynq_read / ar7_vlynq_write from ar7.c) over one 256-byte
bank, keyed by byte offset.
-/

/-- ar7_vlynq_read from ar7.c: plain load, except offset 0 (REVID)
returns the constant revision 0x00010206. -/
def ar7_vlynq_read (r : Nat → Nat) (offset : Nat) : Nat :=
  let val := reg_read r offset
  if offset = 0 then 66054 else val

/-- ar7_vlynq_write from ar7.c: a write to CONTROL (offset 4) first sets
bit 0 of STATUS (offset 8) when bit 0 of the value is clear (normal
operation, link up) and clears it when bit 0 is set (reset); then the
value is stored at the written offset. -/
def ar7_vlynq_write (r : Nat → Nat) (offset val : Nat) : Nat → Nat :=
  let r1 :=
    if offset = 0 then r
    else if offset = 4 then
      (if val.testBit 0 = false then reg_set r 8 1 else reg_clear r 8 1)
    else r
  reg_write r1 offset val

/-!
MDIO (ar7_mdio_write from ar7.c).  The state is the MDIO register file
av.mdio (by word index) and the PHY register file
mdio_useraccess_data[0] (six uint16 registers).
-/

structure MdioState where
  mdio : Nat → Nat
  phy : Nat → Nat

/-- Store into the uint16 PHY register file. -/
def phyWrite (p : Nat → Nat) (k v : Nat) : Nat → Nat :=
  fun j => if j = k then v % 65536 else p j

/-- ar7_mdio_write from ar7.c.  Word 0x20 with GO set runs the user
access: only PHY address 31 (remapped to 0) with a register address
below 6 is live.  A write stores the data field.  A read takes the
current value; if CONTROL has RESET set, RESET is cleared and
AUTO_NEGOTIATE_EN is set in the PHY file (the returned value keeps
RESET); else if CONTROL has RENEGOTIATE set, RENEGOTIATE is cleared,
status becomes 0x782d, remote advertise becomes advertise OR ISOLATE OR
RESET and the MDIO LINK word (index 3) becomes 0x80000000.  In all
cases the handler finally stores the (data-masked) value at the written
index. -/
def ar7_mdio_write (s : MdioState) (index val : Nat) : MdioState :=
  if index = 0 then { s with mdio := reg_write s.mdio 0 val }
  else if index = 1 then { s with mdio := reg_write s.mdio 1 val }
  else if index = 32 ∧ val.testBit 31 = true then
    let regaddr := (val >>> 21) &&& 31
    let phyaddr := (val >>> 16) &&& 31
    let v1 := val &&& 65535
    if phyaddr = 31 ∧ regaddr < 6 then
      (if val.testBit 30 = true then
        { s with phy := phyWrite s.phy regaddr v1,
                 mdio := reg_write s.mdio 32 v1 }
      else
        let v2 := s.phy regaddr
        if regaddr = 0 ∧ v2.testBit 15 = true then
          { s with phy := phyWrite s.phy 0 ((v2 &&& 4294934527) ||| 4096),
                   mdio := reg_write s.mdio 32 v2 }
        else if regaddr = 0 ∧ v2.testBit 9 = true then
          { s with phy := phyWrite (phyWrite (phyWrite s.phy 0
                     (v2 &&& 4294966783)) 1 30765) 5 (s.phy 4 ||| 1024 ||| 32768),
                   mdio := reg_write (reg_write s.mdio 3 2147483648) 32
                     (v2 &&& 4294966783) }
        else { s with mdio := reg_write s.mdio 32 v2 })
    else { s with mdio := reg_write s.mdio 32 v1 }
  else { s with mdio := reg_write s.mdio index val }

/-- The static initializer of the MDIO part of the device: word 0 is
0x00070101, word 2 is 0xffffffff, the rest 0; the PHY file initializer
is control = AUTO_NEGOTIATE_EN, status = 0x7801 + NWAY_CAPABLE,
advertise = 0x01e1, remote advertise = NWAY_AUTO. -/
def mdioInit : MdioState :=
  { mdio := fun i => if i = 0 then 459009 else if i = 2 then 4294967295 else 0,
    phy := fun k =>
      if k = 0 then 4096 else if k = 1 then 30729
      else if k = 4 then 481 else if k = 5 then 1 else 0 }

/-!
Concrete environments for counterexamples and witnesses.
-/

/-- Guest memory holding, at address 256, the one-descriptor chain of
the TX witness: next = 0, buff = 512, length = 4, mode =
SOF OR EOF OR OWNERSHIP OR 4 (EOQ clear), with payload 1,2,3,4 at 512. -/
def txWitMem : Nat → Nat :=
  writeBytes
    (writeU32 (writeU32 (writeU32 (writeU32 (fun _ => 0) 256 0) 260 512) 264 4)
      268 3758096388)
    512 [1, 2, 3, 4]

/-- The TX witness descriptor record for txWitMem. -/
def txWitDesc : TxSpec := { addr := 256, buff := 512, len := 4, mode := 3758096388 }

/-- CPMAC environment for the TX witness. -/
def txWitEnv : CpmacEnv := { cpmacInit with mem := txWitMem }

/-- Guest memory for the TX counterexample: at address 256 a descriptor
with SOF, EOF, OWNERSHIP and also EOQ set (mode = 0xf0000004), length 4,
buffer 512, next = 0; the rest of memory is zero. -/
def cexTxMem : Nat → Nat :=
  writeU32 (writeU32 (writeU32 (writeU32 (fun _ => 0) 256 0) 260 512) 264 4)
    268 4026531844

/-- CPMAC environment for the TX counterexample. -/
def cexTxEnv : CpmacEnv := { cpmacInit with mem := cexTxMem }

/-- Guest memory for the RX theorems: at address 256 a receive
descriptor with next = 512, buff = 768, length = 1600 and
mode = OWNERSHIP OR 1 (a stray low bit, allowed by the claim premise). -/
def rxCexMem : Nat → Nat :=
  writeU32 (writeU32 (writeU32 (writeU32 (fun _ => 0) 256 512) 260 768) 264 1600)
    268 536870913

/-- CPMAC environment for the RX counterexample: RX0_HDP points at the
descriptor at 256. -/
def rxCexEnv : CpmacEnv :=
  { cpmacInit with
    mem := rxCexMem
    regs := reg_write cpmacInit.regs 1568 256 }

/-- All-zero watchdog state (the bank starts zeroed). -/
def wdtInit : WdtState :=
  { kick_lock := 0, kick := 0, change_lock := 0, change := 0,
    disable_lock := 0, disable := 0, prescale_lock := 0, prescale := 0 }

/-- MDIO state used by the counterexample and witness of the MDIO claim:
the PHY control register has RENEGOTIATE set (and RESET clear). -/
def mdioRenegSt : MdioState :=
  { mdioInit with phy := phyWrite mdioInit.phy 0 4608 }

theorem reg_write_same (r : Nat → Nat) (off v : Nat) :
    reg_write r off v off = v % U32MOD := by
  simp [reg_write]

theorem reg_write_ne (r : Nat → Nat) (off v o : Nat) (h : o ≠ off) :
    reg_write r off v o = r o := by
  simp [reg_write, h]

theorem readU32_lt (mem : Nat → Nat) (a : Nat) : readU32 mem a < U32MOD := by
  have h0 : mem a % BYTEMOD < 256 := Nat.mod_lt _ (by decide)
  have h1 : mem (a+1) % BYTEMOD < 256 := Nat.mod_lt _ (by decide)
  have h2 : mem (a+2) % BYTEMOD < 256 := Nat.mod_lt _ (by decide)
  have h3 : mem (a+3) % BYTEMOD < 256 := Nat.mod_lt _ (by decide)
  unfold readU32 U32MOD
  omega

theorem writeU32_out (mem : Nat → Nat) (a v b : Nat)
    (h : b < a ∨ a + 4 ≤ b) : writeU32 mem a v b = mem b := by
  unfold writeU32
  split_ifs with h1 h2 h3 h4
  · exfalso; omega
  · exfalso; omega
  · exfalso; omega
  · exfalso; omega
  · rfl

theorem writeU32_at0 (mem : Nat → Nat) (a v : Nat) :
    writeU32 mem a v a = v % BYTEMOD := by
  unfold writeU32; rw [if_pos rfl]

theorem writeU32_at1 (mem : Nat → Nat) (a v : Nat) :
    writeU32 mem a v (a+1) = v / 256 % BYTEMOD := by
  unfold writeU32; rw [if_neg (by omega), if_pos rfl]

theorem writeU32_at2 (mem : Nat → Nat) (a v : Nat) :
    writeU32 mem a v (a+2) = v / 65536 % BYTEMOD := by
  unfold writeU32; rw [if_neg (by omega), if_neg (by omega), if_pos rfl]

theorem writeU32_at3 (mem : Nat → Nat) (a v : Nat) :
    writeU32 mem a v (a+3) = v / 16777216 % BYTEMOD := by
  unfold writeU32
  rw [if_neg (by omega), if_neg (by omega), if_neg (by omega), if_pos rfl]

theorem readU32_writeU32_same (mem : Nat → Nat) (a v : Nat) :
    readU32 (writeU32 mem a v) a = v % U32MOD := by
  unfold readU32
  rw [writeU32_at0, writeU32_at1, writeU32_at2, writeU32_at3]
  unfold U32MOD BYTEMOD
  omega

theorem readU32_writeU32_disj (mem : Nat → Nat) (a v b : Nat)
    (h : a + 4 ≤ b ∨ b + 4 ≤ a) :
    readU32 (writeU32 mem a v) b = readU32 mem b := by
  unfold readU32
  rw [writeU32_out mem a v b (by omega), writeU32_out mem a v (b+1) (by omega),
    writeU32_out mem a v (b+2) (by omega), writeU32_out mem a v (b+3) (by omega)]

theorem readBytes_writeU32_disj (mem : Nat → Nat) (a v : Nat) :
    ∀ n b, a + 4 ≤ b ∨ b + n ≤ a →
    readBytes (writeU32 mem a v) b n = readBytes mem b n := by
  intro n
  induction n with
  | zero => intro b _; rfl
  | succ k ih =>
    intro b h
    unfold readBytes
    rw [writeU32_out mem a v b (by omega), ih (b+1) (by omega)]

/-- Claim C1, counterexample.  First conjunct: following the claimed
concrete scenario (write 0x00008000 to INTC enable-set-1, i.e. word 8,
then raise line 15 with level 1), reading INTC word 16 does not give
0x0007000f: bit 15 of the mask is not the mask bit of channel 7, so
ar7_irq leaves the latch at 0.  Second conjunct: even with the correct
mask bit 7 set, the latched value is ((15-8) shifted left 16) OR 7 =
0x00070007, not the claimed (15 shifted left 16) OR 7. -/
theorem C1_counterexample :
    ar7_intc_read (ar7_irq (ar7_intc_write irqInit 8 32768) 15 1) 16 ≠ 0x0007000f ∧
    ar7_intc_read (ar7_irq { irqInit with intmask0 := 128 } 15 1) 16 ≠ ((15 <<< 16) ||| (15 - 8)) := by
  constructor
  · decide
  · decide

/-- Claim C1 (amended): for a supported line l in {15, 16, 27, 41}
asserted with level 1 while bit (l-8) of intmask[0] is set, the model
writes ((l-8) shifted left 16) OR (l-8) into INTC word 16 (not
(l shifted left 16) OR (l-8)), sets CPU Cause bit 0x400 and raises
hardware interrupt 0.  For l = 41 the premise cannot hold: the channel is
33 and intmask[0] is a 32-bit register. -/
theorem C1_line_assert (s : IrqEnv) (l : Nat)
    (hl : l = 15 ∨ l = 16 ∨ l = 27 ∨ l = 41)
    (hm : s.intmask0 < U32MOD)
    (hb : s.intmask0.testBit (l - 8) = true) :
    (ar7_irq s l 1).intc 16 = ((l - 8) <<< 16) ||| (l - 8) ∧
    ((ar7_irq s l 1).cause).testBit 10 = true ∧
    (ar7_irq s l 1).hwirq = true := by
  have hm33 : s.intmask0 < 2 ^ 33 := by
    have : U32MOD < 2 ^ 33 := by norm_num [U32MOD]
    omega
  rcases hl with h | h | h | h <;> subst h
  · refine ⟨?_, ?_, ?_⟩ <;>
      simp +decide [ar7_irq, hb, reg_write_same, Nat.testBit_or, U32MOD]
  · refine ⟨?_, ?_, ?_⟩ <;>
      simp +decide [ar7_irq, hb, reg_write_same, Nat.testBit_or, U32MOD]
  · refine ⟨?_, ?_, ?_⟩ <;>
      simp +decide [ar7_irq, hb, reg_write_same, Nat.testBit_or, U32MOD]
  · exact absurd hb (by simp [Nat.testBit_lt_two_pow hm33])

/-- Claim C1 witness at line 15 with mask bit 7 set. -/
theorem C1_line_assert_witness :
    ((128 : Nat) < U32MOD ∧ (128 : Nat).testBit (15 - 8) = true) ∧
    ((ar7_irq { irqInit with intmask0 := 128 } 15 1).intc 16
        = ((15 - 8) <<< 16) ||| (15 - 8) ∧
      ((ar7_irq { irqInit with intmask0 := 128 } 15 1).cause).testBit 10 = true ∧
      (ar7_irq { irqInit with intmask0 := 128 } 15 1).hwirq = true) :=
  ⟨⟨by decide, by decide⟩,
    C1_line_assert { irqInit with intmask0 := 128 } 15 (Or.inl rfl)
      (by decide) (by decide)⟩

/-- Claim C2, counterexample for channel 33 (line 41): even after
setting every bit of both enable-set words (INTC words 8 and 9) and then
asserting line 41 with level 1, the hard interrupt stays deasserted,
because ar7_irq drops every channel that is not below 32 (it only
consults intmask[0]). -/
theorem C2_counterexample :
    (ar7_irq (ar7_intc_write (ar7_intc_write irqInit 8 4294967295) 9 4294967295)
        41 1).hwirq = false := by
  decide

/-- Claim C2 (amended): for a channel c in {7, 8, 19, 33}, asserting
line c+8 while bit c of intmask[0] is clear leaves hardware interrupt 0
deasserted, Cause bit 0x400 clear and INTC word 16 unchanged; and for
the channels below 32 (7, 8 and 19, but not 33), setting the mask bit
through the enable-set word and re-asserting the line raises the hard
interrupt. -/
theorem C2_irq_gating (s : IrqEnv) (c : Nat)
    (hc : c = 7 ∨ c = 8 ∨ c = 19 ∨ c = 33)
    (hclear : s.intmask0.testBit c = false)
    (hirq : s.hwirq = false) (hcause : s.cause.testBit 10 = false) :
    (ar7_irq s (c + 8) 1).hwirq = false ∧
    ((ar7_irq s (c + 8) 1).cause).testBit 10 = false ∧
    (ar7_irq s (c + 8) 1).intc 16 = s.intc 16 ∧
    (c < 32 → (ar7_irq (ar7_intc_write s 8 (1 <<< c)) (c + 8) 1).hwirq = true) := by
  rcases hc with h | h | h | h <;> subst h
  · have hbit : ((s.intmask0 ||| 128) % U32MOD).testBit 7 = true := by
      rw [show U32MOD = 2 ^ 32 by norm_num [U32MOD], Nat.testBit_mod_two_pow]
      simp +decide [Nat.testBit_or]
    refine ⟨?_, ?_, ?_, fun _ => ?_⟩ <;>
      simp +decide [ar7_irq, ar7_intc_write, hclear, hirq, hcause, hbit]
  · have hbit : ((s.intmask0 ||| 256) % U32MOD).testBit 8 = true := by
      rw [show U32MOD = 2 ^ 32 by norm_num [U32MOD], Nat.testBit_mod_two_pow]
      simp +decide [Nat.testBit_or]
    refine ⟨?_, ?_, ?_, fun _ => ?_⟩ <;>
      simp +decide [ar7_irq, ar7_intc_write, hclear, hirq, hcause, hbit]
  · have hbit : ((s.intmask0 ||| 524288) % U32MOD).testBit 19 = true := by
      rw [show U32MOD = 2 ^ 32 by norm_num [U32MOD], Nat.testBit_mod_two_pow]
      simp +decide [Nat.testBit_or]
    refine ⟨?_, ?_, ?_, fun _ => ?_⟩ <;>
      simp +decide [ar7_irq, ar7_intc_write, hclear, hirq, hcause, hbit]
  · refine ⟨?_, ?_, ?_, ?_⟩ <;>
      simp +decide [ar7_irq, ar7_intc_write, hclear, hirq, hcause]

/-- Claim C2 witness at channel 7 starting from the reset state. -/
theorem C2_irq_gating_witness :
    ((irqInit.intmask0.testBit 7 = false) ∧ irqInit.hwirq = false ∧
      irqInit.cause.testBit 10 = false) ∧
    ((ar7_irq irqInit (7 + 8) 1).hwirq = false ∧
      ((ar7_irq irqInit (7 + 8) 1).cause).testBit 10 = false ∧
      (ar7_irq irqInit (7 + 8) 1).intc 16 = irqInit.intc 16 ∧
      (7 < 32 → (ar7_irq (ar7_intc_write irqInit 8 (1 <<< 7)) (7 + 8) 1).hwirq = true)) :=
  ⟨⟨by decide, by decide, by decide⟩,
    C2_irq_gating irqInit 7 (Or.inl rfl) (by decide) (by decide) (by decide)⟩

/-!
Shared helper lemmas.
-/

theorem u32_pow : U32MOD = 2 ^ 32 := by norm_num [U32MOD]

theorem mod_u32_eq {x : Nat} (h : x < U32MOD) : x % U32MOD = x := Nat.mod_eq_of_lt h

theorem or_lt_u32 {x y : Nat} (hx : x < U32MOD) (hy : y < U32MOD) :
    x ||| y < U32MOD := by
  rw [u32_pow] at hx hy ⊢
  exact Nat.or_lt_two_pow hx hy

theorem and_lt_u32 (x : Nat) {y : Nat} (hy : y < U32MOD) : x &&& y < U32MOD := by
  rw [u32_pow] at hy ⊢
  exact Nat.and_lt_two_pow x hy

/-- tx_int_channel computes the index of the highest set bit: the bit it
names is set and all higher bits are clear. -/
theorem tx_int_channel_spec (v : Nat) (hv : v ≠ 0) :
    v.testBit (tx_int_channel v) = true ∧
    ∀ j, tx_int_channel v < j → v.testBit j = false := by
  induction v using Nat.strong_induction_on with
  | _ v ih =>
    by_cases h2 : v < 2
    · have hv1 : v = 1 := by omega
      subst hv1
      have h0 : tx_int_channel 1 = 0 := by
        rw [tx_int_channel, if_pos (by norm_num)]
      constructor
      · rw [h0]; decide
      · intro j hj
        rw [h0] at hj
        exact Nat.testBit_lt_two_pow (Nat.one_lt_two_pow (by omega))
    · have heq : tx_int_channel v = tx_int_channel (v / 2) + 1 := by
        rw [tx_int_channel, if_neg h2]
      have hv2 : v / 2 ≠ 0 := by omega
      obtain ⟨ha, hb⟩ := ih (v / 2) (by omega) hv2
      constructor
      · rw [heq, Nat.testBit_succ]
        exact ha
      · intro j hj
        rw [heq] at hj
        obtain ⟨j1, rfl⟩ : ∃ j1, j = j1 + 1 := ⟨j - 1, by omega⟩
        rw [Nat.testBit_succ]
        exact hb j1 (by omega)

/-- With the input below 2^32, the highest set bit index is below 32. -/
theorem tx_int_channel_lt (v : Nat) (hv : v ≠ 0) (h32 : v < U32MOD) :
    tx_int_channel v < 32 := by
  obtain ⟨ha, _⟩ := tx_int_channel_spec v hv
  have hge := Nat.testBit_implies_ge ha
  by_contra hcon
  have : 2 ^ 32 ≤ 2 ^ tx_int_channel v :=
    Nat.pow_le_pow_right (by norm_num) (by omega)
  rw [u32_pow] at h32
  omega

/-- Claim C3: writing any value v to MAC_IN_VECTOR (offset 0x0180 = 384)
stores it verbatim (the offset hits no special write case), the next
read returns v and zeroes the register, and a second read returns 0. -/
theorem C3_mac_in_vector_read_to_clear (fuel : Nat) (e : CpmacEnv)
    (index v : Nat) (hv : v ≠ 0) (hv32 : v < U32MOD) :
    ∃ e1, ar7_cpmac_write fuel e index 384 v = Except.ok e1 ∧
      (ar7_cpmac_read e1 384).fst = v ∧
      (ar7_cpmac_read ((ar7_cpmac_read e1 384).snd) 384).fst = 0 := by
  refine ⟨{ e with regs := reg_write e.regs 384 v }, ?_, ?_, ?_⟩
  · simp +decide [ar7_cpmac_write]
  · simp [ar7_cpmac_read, reg_read, reg_write_same, mod_u32_eq hv32]
  · simp [ar7_cpmac_read, reg_read, reg_write_same, U32MOD]

/-- Claim C3 witness at v = 5 on the fresh environment. -/
theorem C3_witness :
    ((5 : Nat) ≠ 0 ∧ (5 : Nat) < U32MOD) ∧
    (∃ e1, ar7_cpmac_write 1 cpmacInit 0 384 5 = Except.ok e1 ∧
      (ar7_cpmac_read e1 384).fst = 5 ∧
      (ar7_cpmac_read ((ar7_cpmac_read e1 384).snd) 384).fst = 0) :=
  ⟨⟨by decide, by decide⟩,
    C3_mac_in_vector_read_to_clear 1 cpmacInit 0 5 (by decide) (by decide)⟩

/-- Claim C5, counterexample.  Writing 6 to TX_INTMASK_SET (offset
0x0178 = 376): the lowest set bit of 6 is 1, but the loop of the handler
keeps halving until the value reaches 1, which yields the highest set
bit 2, so MAC_IN_VECTOR becomes 0x10002, not TX_INT_OR plus 1. -/
theorem C5_counterexample :
    (∃ e1, ar7_cpmac_write 1 cpmacInit 0 376 6 = Except.ok e1 ∧
      e1.regs 384 = 65538) ∧
    (6 : Nat).testBit 0 = false ∧ (6 : Nat).testBit 1 = true ∧
    (65538 : Nat) ≠ 65536 + 1 := by
  have h1 : tx_int_channel 1 = 0 := by
    rw [tx_int_channel, if_pos (by norm_num)]
  have h3 : tx_int_channel 3 = 1 := by
    rw [tx_int_channel, if_neg (by norm_num)]
    norm_num [h1]
  have h6 : tx_int_channel 6 = 2 := by
    rw [tx_int_channel, if_neg (by norm_num)]
    norm_num [h3]
  refine ⟨⟨{ cpmacInit with
      regs := reg_set (reg_write cpmacInit.regs 376 6) 384 (65536 + tx_int_channel 6),
      irqs := cpmacInit.irqs ++ [(cpmac_interrupt 0, 1)] }, ?_, ?_⟩,
    by decide, by decide, by decide⟩
  · simp +decide [ar7_cpmac_write]
  · simp +decide [h6, reg_set, reg_read, reg_write, cpmacInit, U32MOD]

/-- Claim C5 (amended): a nonzero write v to TX_INTMASK_SET ORs
TX_INT_OR plus the index of the HIGHEST set bit of v (not the lowest)
into MAC_IN_VECTOR and pulses the CPMAC interrupt line (27 or 41). -/
theorem C5_tx_intmask_set (fuel : Nat) (e : CpmacEnv) (index v : Nat)
    (hv : v ≠ 0) (hv32 : v < U32MOD) (h384 : e.regs 384 < U32MOD) :
    ∃ e1, ar7_cpmac_write fuel e index 376 v = Except.ok e1 ∧
      e1.regs 384 = e.regs 384 ||| (65536 + tx_int_channel v) ∧
      e1.irqs = e.irqs ++ [(cpmac_interrupt index, 1)] ∧
      v.testBit (tx_int_channel v) = true ∧
      (∀ j, tx_int_channel v < j → v.testBit j = false) := by
  obtain ⟨ha, hb⟩ := tx_int_channel_spec v hv
  have hch := tx_int_channel_lt v hv hv32
  have hm : 65536 + tx_int_channel v < U32MOD := by
    rw [u32_pow]; omega
  refine ⟨{ e with
      regs := reg_set (reg_write e.regs 376 v) 384 (65536 + tx_int_channel v),
      irqs := e.irqs ++ [(cpmac_interrupt index, 1)] }, ?_, ?_, rfl, ha, hb⟩
  · simp +decide [ar7_cpmac_write, hv]
  · show reg_set (reg_write e.regs 376 v) 384 (65536 + tx_int_channel v) 384 = _
    rw [reg_set, reg_write_same, reg_read, reg_write_ne _ _ _ _ (by omega)]
    exact mod_u32_eq (or_lt_u32 h384 hm)

/-- Claim C5 witness at v = 1 (highest and lowest set bit agree). -/
theorem C5_witness :
    ((1 : Nat) ≠ 0 ∧ (1 : Nat) < U32MOD ∧ cpmacInit.regs 384 < U32MOD) ∧
    (∃ e1, ar7_cpmac_write 1 cpmacInit 0 376 1 = Except.ok e1 ∧
      e1.regs 384 = cpmacInit.regs 384 ||| (65536 + tx_int_channel 1) ∧
      e1.irqs = cpmacInit.irqs ++ [(cpmac_interrupt 0, 1)] ∧
      (1 : Nat).testBit (tx_int_channel 1) = true ∧
      (∀ j, tx_int_channel 1 < j → (1 : Nat).testBit j = false)) :=
  ⟨⟨by decide, by decide, by decide⟩,
    C5_tx_intmask_set 1 cpmacInit 0 1 (by decide) (by decide) (by decide)⟩

/-!
Evaluation lemmas for the receive-path statistics block.
-/

theorem reg_inc_ne (r : Nat → Nat) (off o : Nat) (h : o ≠ off) :
    reg_inc r off o = r o := reg_write_ne _ _ _ _ h

theorem reg_inc_same (r : Nat → Nat) (off : Nat) :
    reg_inc r off off = (r off + 1) % U32MOD := by
  rw [reg_inc, reg_read, reg_write_same]

theorem rxCounters_other (regs : Nat → Nat) (buf : List Nat) (o : Nat)
    (h1 : o ≠ 512) (h2 : o ≠ 516) (h3 : o ≠ 520) (h4 : o ≠ 536) (h5 : o ≠ 544) :
    rxCounters regs buf o = regs o := by
  unfold rxCounters
  split_ifs <;>
    simp only [reg_inc_ne _ _ _ h1, reg_inc_ne _ _ _ h2, reg_inc_ne _ _ _ h3,
      reg_inc_ne _ _ _ h4, reg_inc_ne _ _ _ h5]

theorem rxCounters_512 (regs : Nat → Nat) (buf : List Nat) :
    rxCounters regs buf 512 = (regs 512 + 1) % U32MOD := by
  unfold rxCounters
  split_ifs <;>
    rw [reg_inc_same] <;>
      simp only [reg_inc_ne _ _ _ (by omega : (512:Nat) ≠ 516),
        reg_inc_ne _ _ _ (by omega : (512:Nat) ≠ 520),
        reg_inc_ne _ _ _ (by omega : (512:Nat) ≠ 536),
        reg_inc_ne _ _ _ (by omega : (512:Nat) ≠ 544)]

theorem rxCounters_516 (regs : Nat → Nat) (buf : List Nat)
    (h : buf.take 6 = [255, 255, 255, 255, 255, 255]) :
    rxCounters regs buf 516 = (regs 516 + 1) % U32MOD := by
  unfold rxCounters
  rw [if_pos h]
  split_ifs <;>
    simp only [reg_inc_ne _ _ _ (by omega : (516:Nat) ≠ 512),
      reg_inc_ne _ _ _ (by omega : (516:Nat) ≠ 536),
      reg_inc_ne _ _ _ (by omega : (516:Nat) ≠ 544), reg_inc_same]

theorem rxCounters_520 (regs : Nat → Nat) (buf : List Nat)
    (h1 : buf.take 6 ≠ [255, 255, 255, 255, 255, 255])
    (h2 : (buf.headD 0).testBit 0 = true) :
    rxCounters regs buf 520 = (regs 520 + 1) % U32MOD := by
  unfold rxCounters
  rw [if_neg h1, if_pos h2]
  split_ifs <;>
    simp only [reg_inc_ne _ _ _ (by omega : (520:Nat) ≠ 512),
      reg_inc_ne _ _ _ (by omega : (520:Nat) ≠ 536),
      reg_inc_ne _ _ _ (by omega : (520:Nat) ≠ 544), reg_inc_same]

theorem rxCounters_544 (regs : Nat → Nat) (buf : List Nat)
    (h : buf.length < 64) :
    rxCounters regs buf 544 = (regs 544 + 1) % U32MOD := by
  unfold rxCounters
  rw [if_pos h]
  split_ifs <;>
    simp only [reg_inc_ne _ _ _ (by omega : (544:Nat) ≠ 512),
      reg_inc_ne _ _ _ (by omega : (544:Nat) ≠ 516),
      reg_inc_ne _ _ _ (by omega : (544:Nat) ≠ 520), reg_inc_same]

theorem rxCounters_536 (regs : Nat → Nat) (buf : List Nat)
    (h : buf.length > 1514) :
    rxCounters regs buf 536 = (regs 536 + 1) % U32MOD := by
  unfold rxCounters
  rw [if_neg (by omega), if_pos h]
  split_ifs <;>
    simp only [reg_inc_ne _ _ _ (by omega : (536:Nat) ≠ 512),
      reg_inc_ne _ _ _ (by omega : (536:Nat) ≠ 516),
      reg_inc_ne _ _ _ (by omega : (536:Nat) ≠ 520), reg_inc_same]

/-- Claim C7: delivering a frame while RX0_HDP (offset 0x0620 = 1568) is
zero drops the frame but still increments RXGOODFRAMES (offset 0x0200 =
512) together with the matching classification and size counters; no
guest memory is written, RX0_HDP stays 0, nothing is sent and the CPMAC
interrupt line is not pulsed. -/
theorem C7_rx_no_buffer (e : CpmacEnv) (index : Nat) (buf : List Nat)
    (hhdp : e.regs 1568 = 0) :
    (ar7_nic_receive e index buf).mem = e.mem ∧
    (ar7_nic_receive e index buf).sent = e.sent ∧
    (ar7_nic_receive e index buf).irqs = e.irqs ∧
    (ar7_nic_receive e index buf).regs 1568 = 0 ∧
    (ar7_nic_receive e index buf).regs 512 = (e.regs 512 + 1) % U32MOD ∧
    (buf.take 6 = [255, 255, 255, 255, 255, 255] →
      (ar7_nic_receive e index buf).regs 516 = (e.regs 516 + 1) % U32MOD) ∧
    (buf.take 6 ≠ [255, 255, 255, 255, 255, 255] → (buf.headD 0).testBit 0 = true →
      (ar7_nic_receive e index buf).regs 520 = (e.regs 520 + 1) % U32MOD) ∧
    (buf.length < 64 →
      (ar7_nic_receive e index buf).regs 544 = (e.regs 544 + 1) % U32MOD) ∧
    (buf.length > 1514 →
      (ar7_nic_receive e index buf).regs 536 = (e.regs 536 + 1) % U32MOD) := by
  have heq : ar7_nic_receive e index buf = { e with regs := rxCounters e.regs buf } := by
    unfold ar7_nic_receive
    rw [if_pos]
    rw [reg_read, rxCounters_other e.regs buf 1568 (by omega) (by omega)
      (by omega) (by omega) (by omega), hhdp]
  rw [heq]
  refine ⟨rfl, rfl, rfl, ?_, rxCounters_512 e.regs buf, ?_, ?_, ?_, ?_⟩
  · show rxCounters e.regs buf 1568 = 0
    rw [rxCounters_other e.regs buf 1568 (by omega) (by omega) (by omega)
      (by omega) (by omega), hhdp]
  · exact fun h1 => rxCounters_516 e.regs buf h1
  · exact fun h1 h2 => rxCounters_520 e.regs buf h1 h2
  · exact fun h1 => rxCounters_544 e.regs buf h1
  · exact fun h1 => rxCounters_536 e.regs buf h1

/-- Claim C7 witness: a 4-byte multicast frame against the fresh
environment (RX0_HDP is 0 there). -/
theorem C7_witness :
    (cpmacInit.regs 1568 = 0) ∧
    ((ar7_nic_receive cpmacInit 0 [1, 2, 3, 4]).mem = cpmacInit.mem ∧
      (ar7_nic_receive cpmacInit 0 [1, 2, 3, 4]).sent = cpmacInit.sent ∧
      (ar7_nic_receive cpmacInit 0 [1, 2, 3, 4]).irqs = cpmacInit.irqs ∧
      (ar7_nic_receive cpmacInit 0 [1, 2, 3, 4]).regs 1568 = 0 ∧
      (ar7_nic_receive cpmacInit 0 [1, 2, 3, 4]).regs 512
        = (cpmacInit.regs 512 + 1) % U32MOD ∧
      ([1, 2, 3, 4].take 6 = [255, 255, 255, 255, 255, 255] →
        (ar7_nic_receive cpmacInit 0 [1, 2, 3, 4]).regs 516
          = (cpmacInit.regs 516 + 1) % U32MOD) ∧
      ([1, 2, 3, 4].take 6 ≠ [255, 255, 255, 255, 255, 255] →
        (([1, 2, 3, 4].headD 0).testBit 0 = true) →
        (ar7_nic_receive cpmacInit 0 [1, 2, 3, 4]).regs 520
          = (cpmacInit.regs 520 + 1) % U32MOD) ∧
      ([1, 2, 3, 4].length < 64 →
        (ar7_nic_receive cpmacInit 0 [1, 2, 3, 4]).regs 544
          = (cpmacInit.regs 544 + 1) % U32MOD) ∧
      ([1, 2, 3, 4].length > 1514 →
        (ar7_nic_receive cpmacInit 0 [1, 2, 3, 4]).regs 536
          = (cpmacInit.regs 536 + 1) % U32MOD)) :=
  ⟨by decide, C7_rx_no_buffer cpmacInit 0 [1, 2, 3, 4] (by decide)⟩

/-- Claim C9: writing a CONTROL value with bit 0 clear to a VLYNQ bank
(offset 4) makes a STATUS read (offset 8) return bit 0 set (link up);
writing a value with bit 0 set makes it return bit 0 clear. -/
theorem C9_vlynq_link (r : Nat → Nat) (v w : Nat)
    (hv : v.testBit 0 = false) (hw : w.testBit 0 = true) :
    (ar7_vlynq_read (ar7_vlynq_write r 4 v) 8).testBit 0 = true ∧
    (ar7_vlynq_read (ar7_vlynq_write r 4 w) 8).testBit 0 = false := by
  constructor
  · have : ar7_vlynq_read (ar7_vlynq_write r 4 v) 8 = (r 8 ||| 1) % U32MOD := by
      simp +decide [ar7_vlynq_read, ar7_vlynq_write, hv, reg_set, reg_read,
        reg_write]
    rw [this, u32_pow, Nat.testBit_mod_two_pow]
    simp [Nat.testBit_or]
  · have : ar7_vlynq_read (ar7_vlynq_write r 4 w) 8
        = (r 8 &&& 4294967294) % U32MOD := by
      simp +decide [ar7_vlynq_read, ar7_vlynq_write, hw, reg_clear, reg_read,
        reg_write, U32MOD]
    rw [this, u32_pow, Nat.testBit_mod_two_pow]
    simp +decide [Nat.testBit_and]

/-- Claim C9 witness with the all-zero bank, v = 0 and w = 1. -/
theorem C9_witness :
    ((0 : Nat).testBit 0 = false ∧ (1 : Nat).testBit 0 = true) ∧
    ((ar7_vlynq_read (ar7_vlynq_write (fun _ => 0) 4 0) 8).testBit 0 = true ∧
      (ar7_vlynq_read (ar7_vlynq_write (fun _ => 0) 4 1) 8).testBit 0 = false) :=
  ⟨⟨by decide, by decide⟩, C9_vlynq_link (fun _ => 0) 0 1 (by decide) (by decide)⟩

/-- Claim C8: a write to any watchdog value register (kick at offset 4,
change at 12, disable at 20, prescale at 28) while the paired lock's low
two bits differ from 3 leaves the whole watchdog state unchanged (in
fact the model never changes state on a value write); the lock registers
advance their 2-bit stage only on the exact magic values: prescale
0x5a5a then 0xa5a5 give stages 1 and 3, disable 0x7777, 0xcccc, 0xdddd
give stages 1, 2 and 3, and any other value leaves the lock unchanged
(kick and change likewise). -/
theorem C8_wdt_lock_sequencing (s : WdtState) (v : Nat)
    (hk : s.kick_lock % 4 ≠ 3) (hc : s.change_lock % 4 ≠ 3)
    (hd : s.disable_lock % 4 ≠ 3) (hp : s.prescale_lock % 4 ≠ 3) :
    ar7_wdt_write s 4 v = s ∧
    ar7_wdt_write s 12 v = s ∧
    ar7_wdt_write s 20 v = s ∧
    ar7_wdt_write s 28 v = s ∧
    (ar7_wdt_write s 24 23130).prescale_lock % 4 = 1 ∧
    (ar7_wdt_write (ar7_wdt_write s 24 23130) 24 42405).prescale_lock % 4 = 3 ∧
    (ar7_wdt_write s 16 30583).disable_lock % 4 = 1 ∧
    (ar7_wdt_write (ar7_wdt_write s 16 30583) 16 52428).disable_lock % 4 = 2 ∧
    (ar7_wdt_write (ar7_wdt_write (ar7_wdt_write s 16 30583) 16 52428)
        16 56797).disable_lock % 4 = 3 ∧
    (v ≠ 23130 → v ≠ 42405 → (ar7_wdt_write s 24 v).prescale_lock = s.prescale_lock) ∧
    (v ≠ 30583 → v ≠ 52428 → v ≠ 56797 →
      (ar7_wdt_write s 16 v).disable_lock = s.disable_lock) ∧
    (v ≠ 21845 → v ≠ 43690 → (ar7_wdt_write s 0 v).kick_lock = s.kick_lock) ∧
    (v ≠ 26214 → v ≠ 48059 → (ar7_wdt_write s 8 v).change_lock = s.change_lock) := by
  refine ⟨?_, ?_, ?_, ?_, ?_, ?_, ?_, ?_, ?_, ?_, ?_, ?_, ?_⟩
  · simp +decide [ar7_wdt_write]
  · simp +decide [ar7_wdt_write]
  · simp +decide [ar7_wdt_write]
  · simp +decide [ar7_wdt_write]
  · simp +decide [ar7_wdt_write]
  · simp +decide [ar7_wdt_write]
  · simp +decide [ar7_wdt_write]
  · simp +decide [ar7_wdt_write]
  · simp +decide [ar7_wdt_write]
  · intro h1 h2; simp [ar7_wdt_write, h1, h2]
  · intro h1 h2 h3; simp [ar7_wdt_write, h1, h2, h3]
  · intro h1 h2; simp [ar7_wdt_write, h1, h2]
  · intro h1 h2; simp [ar7_wdt_write, h1, h2]

/-- Claim C8 witness on the zeroed watchdog with v = 0xffff. -/
theorem C8_witness :
    (wdtInit.kick_lock % 4 ≠ 3 ∧ wdtInit.change_lock % 4 ≠ 3 ∧
      wdtInit.disable_lock % 4 ≠ 3 ∧ wdtInit.prescale_lock % 4 ≠ 3) ∧
    (ar7_wdt_write wdtInit 4 65535 = wdtInit ∧
      ar7_wdt_write wdtInit 12 65535 = wdtInit ∧
      ar7_wdt_write wdtInit 20 65535 = wdtInit ∧
      ar7_wdt_write wdtInit 28 65535 = wdtInit ∧
      (ar7_wdt_write wdtInit 24 23130).prescale_lock % 4 = 1 ∧
      (ar7_wdt_write (ar7_wdt_write wdtInit 24 23130) 24 42405).prescale_lock % 4 = 3 ∧
      (ar7_wdt_write wdtInit 16 30583).disable_lock % 4 = 1 ∧
      (ar7_wdt_write (ar7_wdt_write wdtInit 16 30583) 16 52428).disable_lock % 4 = 2 ∧
      (ar7_wdt_write (ar7_wdt_write (ar7_wdt_write wdtInit 16 30583) 16 52428)
          16 56797).disable_lock % 4 = 3 ∧
      ((65535 : Nat) ≠ 23130 → (65535 : Nat) ≠ 42405 →
        (ar7_wdt_write wdtInit 24 65535).prescale_lock = wdtInit.prescale_lock) ∧
      ((65535 : Nat) ≠ 30583 → (65535 : Nat) ≠ 52428 → (65535 : Nat) ≠ 56797 →
        (ar7_wdt_write wdtInit 16 65535).disable_lock = wdtInit.disable_lock) ∧
      ((65535 : Nat) ≠ 21845 → (65535 : Nat) ≠ 43690 →
        (ar7_wdt_write wdtInit 0 65535).kick_lock = wdtInit.kick_lock) ∧
      ((65535 : Nat) ≠ 26214 → (65535 : Nat) ≠ 48059 →
        (ar7_wdt_write wdtInit 8 65535).change_lock = wdtInit.change_lock)) :=
  ⟨⟨by decide, by decide, by decide, by decide⟩,
    C8_wdt_lock_sequencing wdtInit 65535 (by decide) (by decide) (by decide)
      (by decide)⟩

/-- Claim C10, counterexample.  A renegotiation-completing USERACCESS0
read (GO = 1, WRITE = 0, PHYADDR = 31, REGADDR = 0, value 0x801f0000)
against a PHY whose control register has RENEGOTIATE set: the handler
does run the renegotiation branch (the status register becomes 0x782d),
but MDIO word 8 keeps its value 0; the 0x80000000 link bitmap lands in
MDIO word 3 (byte offset 0x0c), so the claim naming word index 8 fails. -/
theorem C10_counterexample :
    (ar7_mdio_write mdioRenegSt 32 2149515264).phy 1 = 30765 ∧
    (ar7_mdio_write mdioRenegSt 32 2149515264).mdio 8 = 0 ∧
    (ar7_mdio_write mdioRenegSt 32 2149515264).mdio 3 = 2147483648 ∧
    (0 : Nat) ≠ 2147483648 := by
  refine ⟨?_, ?_, ?_, by decide⟩ <;> decide

/-- Claim C10 (amended): a USERACCESS0 write with GO = 1, WRITE = 0,
PHYADDR = 31, REGADDR = 0 that finds RENEGOTIATE set (and RESET clear,
since RESET takes precedence) clears RENEGOTIATE, sets the PHY status
register to the auto-negotiation-complete/link-up/capable pattern
0x782d, sets remote advertise to advertise OR ISOLATE OR RESET, and
stores 0x80000000 in MDIO word index 3 (the LINK register at byte
offset 0x0c) - not word index 8. -/
theorem C10_mdio_renegotiate (s : MdioState) (val : Nat)
    (hgo : val.testBit 31 = true) (hwr : val.testBit 30 = false)
    (hphy : (val >>> 16) &&& 31 = 31) (hreg : (val >>> 21) &&& 31 = 0)
    (hreset : (s.phy 0).testBit 15 = false)
    (hreneg : (s.phy 0).testBit 9 = true)
    (hp0 : s.phy 0 < 65536) (hp4 : s.phy 4 < 65536) :
    (ar7_mdio_write s 32 val).phy 0 = s.phy 0 &&& 4294966783 ∧
    ((ar7_mdio_write s 32 val).phy 0).testBit 9 = false ∧
    (ar7_mdio_write s 32 val).phy 1 = 30765 ∧
    (ar7_mdio_write s 32 val).phy 5 = s.phy 4 ||| 1024 ||| 32768 ∧
    (ar7_mdio_write s 32 val).mdio 3 = 2147483648 := by
  have hne30 : ¬ val.testBit 30 = true := by simp [hwr]
  have heq : ar7_mdio_write s 32 val =
      { s with
        phy := phyWrite (phyWrite (phyWrite s.phy 0
                 (s.phy 0 &&& 4294966783)) 1 30765) 5
                 (s.phy 4 ||| 1024 ||| 32768)
        mdio := reg_write (reg_write s.mdio 3 2147483648) 32
                 (s.phy 0 &&& 4294966783) } := by
    unfold ar7_mdio_write
    rw [if_neg (by omega : ¬(32 : Nat) = 0), if_neg (by omega : ¬(32 : Nat) = 1),
      if_pos (show (32 : Nat) = 32 ∧ val.testBit 31 = true from ⟨rfl, hgo⟩)]
    simp only [hphy, hreg]
    rw [if_pos (show True ∧ (0 : Nat) < 6 from ⟨trivial, by norm_num⟩),
      if_neg hne30,
      if_neg (show ¬(True ∧ (s.phy 0).testBit 15 = true) by simp [hreset]),
      if_pos (show True ∧ (s.phy 0).testBit 9 = true from ⟨trivial, hreneg⟩)]
  have hand : s.phy 0 &&& 4294966783 < 65536 := by
    have hle : s.phy 0 &&& 4294966783 ≤ s.phy 0 := Nat.and_le_left
    omega
  have hor : s.phy 4 ||| 1024 ||| 32768 < 65536 := by
    have hp16 : (65536 : Nat) = 2 ^ 16 := by norm_num
    have h1 : s.phy 4 ||| 1024 < 65536 := by
      rw [hp16] at hp4 ⊢
      exact Nat.or_lt_two_pow hp4 (by norm_num)
    rw [hp16] at h1 ⊢
    exact Nat.or_lt_two_pow h1 (by norm_num)
  rw [heq]
  refine ⟨?_, ?_, ?_, ?_, ?_⟩
  · simp +decide [phyWrite, Nat.mod_eq_of_lt hand]
  · simp +decide [phyWrite, Nat.mod_eq_of_lt hand, Nat.testBit_and]
  · simp +decide [phyWrite]
  · simp +decide [phyWrite, Nat.mod_eq_of_lt hor]
  · simp +decide [reg_write, U32MOD]

/-- Claim C10 witness on the renegotiating PHY state. -/
theorem C10_witness :
    ((2149515264 : Nat).testBit 31 = true ∧
      (2149515264 : Nat).testBit 30 = false ∧
      ((2149515264 : Nat) >>> 16) &&& 31 = 31 ∧
      ((2149515264 : Nat) >>> 21) &&& 31 = 0 ∧
      (mdioRenegSt.phy 0).testBit 15 = false ∧
      (mdioRenegSt.phy 0).testBit 9 = true ∧
      mdioRenegSt.phy 0 < 65536 ∧ mdioRenegSt.phy 4 < 65536) ∧
    ((ar7_mdio_write mdioRenegSt 32 2149515264).phy 0
        = mdioRenegSt.phy 0 &&& 4294966783 ∧
      ((ar7_mdio_write mdioRenegSt 32 2149515264).phy 0).testBit 9 = false ∧
      (ar7_mdio_write mdioRenegSt 32 2149515264).phy 1 = 30765 ∧
      (ar7_mdio_write mdioRenegSt 32 2149515264).phy 5
        = mdioRenegSt.phy 4 ||| 1024 ||| 32768 ∧
      (ar7_mdio_write mdioRenegSt 32 2149515264).mdio 3 = 2147483648) :=
  ⟨⟨by decide, by decide, by decide, by decide, by decide, by decide,
     by decide, by decide⟩,
    C10_mdio_renegotiate mdioRenegSt 2149515264 (by decide) (by decide)
      (by decide) (by decide) (by decide) (by decide) (by decide) (by decide)⟩

/-!
Byte-store lemmas for the receive payload copy.
-/

theorem writeBytes_out : ∀ (xs : List Nat) (m : Nat → Nat) (a b : Nat),
    b < a ∨ a + xs.length ≤ b → writeBytes m a xs b = m b := by
  intro xs
  induction xs with
  | nil => intro m a b _; rfl
  | cons x xs ih =>
    intro m a b h
    have hl : (x :: xs).length = xs.length + 1 := rfl
    rw [hl] at h
    show writeBytes (fun b2 => if b2 = a then x % BYTEMOD else m b2) (a+1) xs b = m b
    rw [ih _ (a+1) b (by omega)]
    rw [if_neg (by omega)]

theorem readBytes_writeBytes : ∀ (buf : List Nat) (m : Nat → Nat) (a : Nat),
    readBytes (writeBytes m a buf) a buf.length
      = buf.map (fun b => b % BYTEMOD) := by
  intro buf
  induction buf with
  | nil => intro m a; rfl
  | cons x xs ih =>
    intro m a
    show readBytes (writeBytes (fun b2 => if b2 = a then x % BYTEMOD else m b2)
      (a+1) xs) a (xs.length + 1) = (x % BYTEMOD) :: xs.map (fun b => b % BYTEMOD)
    unfold readBytes
    rw [writeBytes_out xs _ (a+1) a (Or.inl (by omega)), ih _ (a+1)]
    rw [show (if a = a then x % BYTEMOD else m a) = x % BYTEMOD from if_pos rfl]
    congr 1
    simp only [BYTEMOD]
    omega

theorem readBytes_writeBytes_len (buf : List Nat) (m : Nat → Nat) (a n : Nat)
    (h : n = buf.length) :
    readBytes (writeBytes m a buf) a n = buf.map (fun b => b % BYTEMOD) := by
  rw [h, readBytes_writeBytes]

/-- Claim C6, counterexample.  The RX descriptor at 256 has mode
OWNERSHIP OR 1 and next = 512; after delivering the 4-byte frame
1,2,3,4 the written-back mode word is 0xc0000005 (the stray low bit of
the old mode survives, because the code ORs into the old mode), whereas
the claim predicts exactly SOF OR EOF OR size = 0xc0000004. -/
theorem C6_counterexample :
    readU32 (ar7_nic_receive rxCexEnv 0 [1, 2, 3, 4]).mem 268 = 3221225477 ∧
    (3221225477 : Nat) ≠ 3221225476 := by
  constructor
  · decide
  · decide

/-- Claim C6 (amended): delivering a frame of s bytes while RX0_HDP
points at a descriptor whose mode has OWNERSHIP set writes the payload
to guest memory at the descriptor's buff pointer, writes the descriptor
back with length = s and mode = (old mode with OWNERSHIP cleared) OR
(s AND 0xffff) OR SOF OR EOF (OR EOQ when next = 0) - the old mode bits
survive under OR, the mode is not replaced outright - advances RX0_HDP
to next, ORs RX_INT_OR into MAC_IN_VECTOR and pulses the CPMAC
interrupt line. -/
theorem C6_rx_deliver (e : CpmacEnv) (index : Nat) (buf : List Nat)
    (p nxt addr mode : Nat)
    (hp : e.regs 1568 = p) (hp0 : p ≠ 0)
    (hnxt : readU32 e.mem p = nxt) (haddr : readU32 e.mem (p+4) = addr)
    (hmode : readU32 e.mem (p+12) = mode) (hown : mode.testBit 29 = true)
    (hdisj : addr + buf.length ≤ p ∨ p + 16 ≤ addr)
    (hlen : buf.length < U32MOD) (h384 : e.regs 384 < U32MOD) :
    readBytes (ar7_nic_receive e index buf).mem addr buf.length
      = buf.map (fun b => b % BYTEMOD) ∧
    readU32 (ar7_nic_receive e index buf).mem (p+8) = buf.length ∧
    readU32 (ar7_nic_receive e index buf).mem (p+12)
      = ((mode &&& 3758096383) ||| (buf.length &&& 65535) ||| 2147483648 |||
          1073741824) ||| (if nxt = 0 then 268435456 else 0) ∧
    (readU32 (ar7_nic_receive e index buf).mem (p+12)).testBit 29 = false ∧
    readU32 (ar7_nic_receive e index buf).mem p = nxt ∧
    (ar7_nic_receive e index buf).regs 1568 = nxt ∧
    (ar7_nic_receive e index buf).regs 384 = e.regs 384 ||| 131072 ∧
    (ar7_nic_receive e index buf).irqs = e.irqs ++ [(cpmac_interrupt index, 1)] := by
  have hr1568 : rxCounters e.regs buf 1568 = p := by
    rw [rxCounters_other e.regs buf 1568 (by omega) (by omega) (by omega)
      (by omega) (by omega), hp]
  have hmlt : mode < U32MOD := by rw [← hmode]; exact readU32_lt e.mem (p+12)
  have hnlt : nxt < U32MOD := by rw [← hnxt]; exact readU32_lt e.mem p
  have heq : ar7_nic_receive e index buf =
      { e with
        regs := reg_set (reg_write (rxCounters e.regs buf) 1568 nxt) 384 131072
        mem := writeU32 (writeU32 (writeU32 (writeU32
                 (writeBytes e.mem addr buf) p nxt) (p+4) addr)
                 (p+8) buf.length) (p+12)
                 (if nxt = 0
                  then mode &&& 3758096383 ||| (buf.length &&& 65535) |||
                    2147483648 ||| 1073741824 ||| 268435456
                  else mode &&& 3758096383 ||| (buf.length &&& 65535) |||
                    2147483648 ||| 1073741824)
        irqs := e.irqs ++ [(cpmac_interrupt index, 1)] } := by
    simp only [ar7_nic_receive, reg_read]
    rw [hr1568, if_neg hp0, hnxt, haddr, hmode, if_pos hown]
  rw [heq]
  have h12 : mode &&& 3758096383 ||| (buf.length &&& 65535) < U32MOD :=
    or_lt_u32 (and_lt_u32 mode (by norm_num [U32MOD]))
      (and_lt_u32 buf.length (by norm_num [U32MOD]))
  have h1234 : mode &&& 3758096383 ||| (buf.length &&& 65535) |||
      2147483648 ||| 1073741824 < U32MOD :=
    or_lt_u32 (or_lt_u32 h12 (by norm_num [U32MOD])) (by norm_num [U32MOD])
  have hm4lt : (if nxt = 0
      then mode &&& 3758096383 ||| (buf.length &&& 65535) |||
        2147483648 ||| 1073741824 ||| 268435456
      else mode &&& 3758096383 ||| (buf.length &&& 65535) |||
        2147483648 ||| 1073741824) < U32MOD := by
    split_ifs
    · exact or_lt_u32 h1234 (by norm_num [U32MOD])
    · exact h1234
  refine ⟨?_, ?_, ?_, ?_, ?_, ?_, ?_, rfl⟩
  · rw [readBytes_writeU32_disj _ _ _ _ _ (by omega),
      readBytes_writeU32_disj _ _ _ _ _ (by omega),
      readBytes_writeU32_disj _ _ _ _ _ (by omega),
      readBytes_writeU32_disj _ _ _ _ _ (by omega),
      readBytes_writeBytes]
  · rw [readU32_writeU32_disj _ _ _ _ (by omega), readU32_writeU32_same,
      mod_u32_eq hlen]
  · rw [readU32_writeU32_same, mod_u32_eq hm4lt]
    split_ifs with h0
    · rfl
    · rw [Nat.or_zero]
  · rw [readU32_writeU32_same, mod_u32_eq hm4lt]
    split_ifs with h0 <;>
      simp +decide [Nat.testBit_or, Nat.testBit_and]
  · rw [readU32_writeU32_disj _ _ _ _ (by omega),
      readU32_writeU32_disj _ _ _ _ (by omega),
      readU32_writeU32_disj _ _ _ _ (by omega),
      readU32_writeU32_same, mod_u32_eq hnlt]
  · show reg_set (reg_write (rxCounters e.regs buf) 1568 nxt) 384 131072 1568 = nxt
    rw [reg_set, reg_write_ne _ _ _ _ (by omega), reg_write_same, mod_u32_eq hnlt]
  · show reg_set (reg_write (rxCounters e.regs buf) 1568 nxt) 384 131072 384
      = e.regs 384 ||| 131072
    rw [reg_set, reg_write_same, reg_read, reg_write_ne _ _ _ _ (by omega),
      rxCounters_other e.regs buf 384 (by omega) (by omega) (by omega)
        (by omega) (by omega),
      mod_u32_eq (or_lt_u32 h384 (by norm_num [U32MOD]))]

/-- Claim C6 witness on the concrete descriptor at 256 with a 4-byte
frame. -/
theorem C6_witness :
    (rxCexEnv.regs 1568 = 256 ∧ (256 : Nat) ≠ 0 ∧
      readU32 rxCexEnv.mem 256 = 512 ∧
      readU32 rxCexEnv.mem (256+4) = 768 ∧
      readU32 rxCexEnv.mem (256+12) = 536870913 ∧
      (536870913 : Nat).testBit 29 = true ∧
      (768 + [1, 2, 3, 4].length ≤ 256 ∨ 256 + 16 ≤ 768) ∧
      [1, 2, 3, 4].length < U32MOD ∧ rxCexEnv.regs 384 < U32MOD) ∧
    (readBytes (ar7_nic_receive rxCexEnv 0 [1, 2, 3, 4]).mem 768
        [1, 2, 3, 4].length = [1, 2, 3, 4].map (fun b => b % BYTEMOD) ∧
      readU32 (ar7_nic_receive rxCexEnv 0 [1, 2, 3, 4]).mem (256+8)
        = [1, 2, 3, 4].length ∧
      readU32 (ar7_nic_receive rxCexEnv 0 [1, 2, 3, 4]).mem (256+12)
        = ((536870913 &&& 3758096383) ||| ([1, 2, 3, 4].length &&& 65535) |||
            2147483648 ||| 1073741824) ||| (if (512 : Nat) = 0 then 268435456 else 0) ∧
      (readU32 (ar7_nic_receive rxCexEnv 0 [1, 2, 3, 4]).mem (256+12)).testBit 29
        = false ∧
      readU32 (ar7_nic_receive rxCexEnv 0 [1, 2, 3, 4]).mem 256 = 512 ∧
      (ar7_nic_receive rxCexEnv 0 [1, 2, 3, 4]).regs 1568 = 512 ∧
      (ar7_nic_receive rxCexEnv 0 [1, 2, 3, 4]).regs 384
        = rxCexEnv.regs 384 ||| 131072 ∧
      (ar7_nic_receive rxCexEnv 0 [1, 2, 3, 4]).irqs
        = rxCexEnv.irqs ++ [(cpmac_interrupt 0, 1)]) :=
  ⟨⟨by decide, by decide, by decide, by decide, by decide, by decide,
     by decide, by decide, by decide⟩,
    C6_rx_deliver rxCexEnv 0 [1, 2, 3, 4] 256 512 768 536870913 (by decide)
      (by decide) (by decide) (by decide) (by decide) (by decide) (by decide)
      (by decide) (by decide)⟩

/-!
TX DMA chain lemmas.
-/

theorem reg_set_same (r : Nat → Nat) (off v : Nat) :
    reg_set r off v off = (r off ||| v) % U32MOD := by
  rw [reg_set, reg_write_same, reg_read]

theorem reg_set_ne (r : Nat → Nat) (off v o : Nat) (h : o ≠ off) :
    reg_set r off v o = r o := reg_write_ne _ _ _ _ h

/-- One pass of the sendloop on a well-formed descriptor with EOQ clear:
the frame is exactly the descriptor's buffer, OWNERSHIP is cleared in
memory and the walk stops at the descriptor's next pointer. -/
theorem txInner_step (mem : Nat → Nat) (d : TxSpec) (nxt fuel : Nat)
    (h : wfDesc mem d nxt) :
    txInner mem (fuel+1) d.addr [] =
      Except.ok (writeU32 mem (d.addr+12) (d.mode &&& 3758096383),
        readBytes mem d.buff d.len, nxt) := by
  obtain ⟨h0, h1, h2, h3, h4, h5, h6, h7, h8, h9, h10⟩ := h
  have heoq : (d.mode &&& 3758096383).testBit 28 = false := by
    rw [Nat.testBit_and, h9]
    rfl
  simp only [txInner, h1, h2, h3, h4, List.length_nil, List.nil_append]
  rw [if_pos (by omega), if_pos ⟨h5, h6, h7, h8⟩, if_neg (by rw [heoq]; simp)]

theorem wfChain_writeU32 (v : Nat) : ∀ (ds : List TxSpec) (mem : Nat → Nat) (a : Nat),
    (∀ d2 ∈ ds, a + 4 ≤ d2.addr ∨ d2.addr + 16 ≤ a) →
    wfChain mem ds → wfChain (writeU32 mem a v) ds := by
  intro ds
  induction ds with
  | nil => intro mem a _ _; trivial
  | cons d rest ih =>
    intro mem a hsep hwf
    obtain ⟨⟨h0, h1, h2, h3, h4, h5, h6, h7, h8, h9, h10⟩, hrest⟩ := hwf
    have hd := hsep d (by simp)
    refine ⟨⟨h0, ?_, ?_, ?_, ?_, h5, h6, h7, h8, h9, h10⟩,
      ih mem a (fun d2 hd2 => hsep d2 (by simp [hd2])) hrest⟩
    · rw [readU32_writeU32_disj _ _ _ _ (by omega)]; exact h1
    · rw [readU32_writeU32_disj _ _ _ _ (by omega)]; exact h2
    · rw [readU32_writeU32_disj _ _ _ _ (by omega)]; exact h3
    · rw [readU32_writeU32_disj _ _ _ _ (by omega)]; exact h4

theorem readU32_finalMem_out : ∀ (ds : List TxSpec) (mem : Nat → Nat) (x : Nat),
    (∀ d2 ∈ ds, d2.addr + 16 ≤ x ∨ x + 4 ≤ d2.addr + 12) →
    readU32 (finalMem ds mem) x = readU32 mem x := by
  intro ds
  induction ds with
  | nil => intro mem x _; rfl
  | cons d rest ih =>
    intro mem x h
    have hd := h d (by simp)
    show readU32 (finalMem rest (writeU32 mem (d.addr+12) (d.mode &&& 3758096383))) x
      = readU32 mem x
    rw [ih _ x (fun d2 hd2 => h d2 (by simp [hd2])),
      readU32_writeU32_disj _ _ _ _ (by omega)]

/-- After the TX walk, every descriptor's mode word in guest memory is
the original mode with OWNERSHIP cleared. -/
theorem finalMem_modes : ∀ (ds : List TxSpec) (mem : Nat → Nat),
    chainSep ds → wfChain mem ds →
    ∀ dd ∈ ds, readU32 (finalMem ds mem) (dd.addr + 12)
      = dd.mode &&& 3758096383 := by
  intro ds
  induction ds with
  | nil => intro mem _ _ dd h; cases h
  | cons d rest ih =>
    intro mem hsep hwf dd hdd
    obtain ⟨hsd, hsrest⟩ := hsep
    obtain ⟨hwd, hwrest⟩ := hwf
    rcases List.mem_cons.mp hdd with heq | hmem
    · subst heq
      show readU32 (finalMem rest (writeU32 mem (dd.addr+12)
        (dd.mode &&& 3758096383))) (dd.addr + 12) = dd.mode &&& 3758096383
      rw [readU32_finalMem_out rest _ _ (fun d2 hd2 => by
          obtain ⟨hb, _⟩ := hsd d2 hd2; omega),
        readU32_writeU32_same]
      exact mod_u32_eq (and_lt_u32 dd.mode (by norm_num [U32MOD]))
    · show readU32 (finalMem rest (writeU32 mem (d.addr+12)
        (d.mode &&& 3758096383))) (dd.addr + 12) = dd.mode &&& 3758096383
      exact ih _ hsrest
        (wfChain_writeU32 _ rest mem (d.addr+12) (fun d2 hd2 => by
          obtain ⟨hb, _⟩ := hsd d2 hd2; omega) hwrest) dd hmem

/-- One frame of the outer TX loop: with a bound backend, send the
frame, bump TXGOODFRAMES, OR the vector bits, pulse the line and
continue on the updated state. -/
theorem txOuter_step (e : CpmacEnv) (fuel index channel p : Nat)
    (mem2 : Nat → Nat) (frame : List Nat) (nxt : Nat)
    (hp : p ≠ 0) (hvc : e.nic.vcBound = true)
    (hinner : txInner e.mem (fuel+1) p [] = Except.ok (mem2, frame, nxt)) :
    txOuter e (fuel+1) index channel p =
      txOuter { e with
                mem := mem2,
                sent := e.sent ++ [frame],
                regs := reg_set (reg_inc e.regs 564) 384 (65536 + channel),
                irqs := e.irqs ++ [(cpmac_interrupt index, 1)] }
        fuel index channel nxt := by
  obtain ⟨regs, mem, nic, sent, irqs⟩ := e
  obtain ⟨phys, vcb⟩ := nic
  simp only at hvc hinner
  subst hvc
  simp only [txOuter]
  rw [if_neg hp, hinner]
  simp

/-- The outer TX loop over a well-formed, separated chain with a bound
backend: it terminates normally, clears OWNERSHIP of every descriptor,
hands one frame per descriptor to the backend, bumps TXGOODFRAMES once
per frame, ORs TX_INT_OR plus the channel into MAC_IN_VECTOR and pulses
the interrupt line once per frame. -/
theorem txOuter_chain : ∀ (ds : List TxSpec) (e : CpmacEnv) (index channel : Nat),
    wfChain e.mem ds → chainSep ds → e.nic.vcBound = true →
    e.regs 384 < U32MOD → e.regs 564 < U32MOD → channel ≤ 7 →
    ∃ e2, txOuter e (ds.length + 1) index channel (chainNext ds) = Except.ok e2 ∧
      e2.mem = finalMem ds e.mem ∧
      e2.sent = e.sent ++ ds.map (fun d => readBytes e.mem d.buff d.len) ∧
      e2.irqs = e.irqs ++ List.replicate ds.length (cpmac_interrupt index, 1) ∧
      e2.regs 564 = (e.regs 564 + ds.length) % U32MOD ∧
      (ds = [] → e2.regs 384 = e.regs 384) ∧
      (ds ≠ [] → e2.regs 384 = e.regs 384 ||| (65536 + channel)) ∧
      e2.nic = e.nic := by
  intro ds
  induction ds with
  | nil =>
    intro e index channel _ _ _ h384 h564 _
    refine ⟨e, ?_, rfl, by simp, by simp, ?_, fun _ => rfl,
      fun h => absurd rfl h, rfl⟩
    · show txOuter e 1 index channel 0 = Except.ok e
      simp [txOuter]
    · simp [mod_u32_eq h564]
  | cons d rest ih =>
    intro e index channel hwf hsep hvc h384 h564 hch
    obtain ⟨hwd, hwrest⟩ := hwf
    obtain ⟨hsd, hsrest⟩ := hsep
    have h0 : d.addr ≠ 0 := hwd.1
    have hstep := txInner_step e.mem d (chainNext rest) (rest.length + 1) hwd
    have hm : 65536 + channel < U32MOD := by rw [u32_pow]; omega
    have hwrest2 : wfChain (writeU32 e.mem (d.addr+12) (d.mode &&& 3758096383)) rest :=
      wfChain_writeU32 _ rest e.mem (d.addr+12)
        (fun d2 hd2 => by obtain ⟨hb, _⟩ := hsd d2 hd2; omega) hwrest
    have h384b : reg_set (reg_inc e.regs 564) 384 (65536 + channel) 384 < U32MOD := by
      rw [reg_set_same]
      exact Nat.mod_lt _ (by norm_num [U32MOD])
    have h384c : reg_set (reg_inc e.regs 564) 384 (65536 + channel) 384
        = e.regs 384 ||| (65536 + channel) := by
      rw [reg_set_same, reg_inc_ne _ _ _ (by omega), mod_u32_eq (or_lt_u32 h384 hm)]
    have h564b : reg_set (reg_inc e.regs 564) 384 (65536 + channel) 564
        = (e.regs 564 + 1) % U32MOD := by
      rw [reg_set_ne _ _ _ _ (by omega), reg_inc_same]
    obtain ⟨e2, hrun, hmem, hsent, hirqs, h564r, hnil, hcons, hnic⟩ :=
      ih { e with
           mem := writeU32 e.mem (d.addr+12) (d.mode &&& 3758096383),
           sent := e.sent ++ [readBytes e.mem d.buff d.len],
           regs := reg_set (reg_inc e.regs 564) 384 (65536 + channel),
           irqs := e.irqs ++ [(cpmac_interrupt index, 1)] }
        index channel hwrest2 hsrest hvc h384b
        (by show reg_set (reg_inc e.regs 564) 384 (65536 + channel) 564 < U32MOD
            rw [h564b]
            exact Nat.mod_lt _ (by norm_num [U32MOD])) hch
    simp only at hmem hsent hirqs h564r hnil hcons hnic
    refine ⟨e2, ?_, ?_, ?_, ?_, ?_, ?_, ?_, ?_⟩
    · show txOuter e (rest.length + 1 + 1) index channel d.addr = Except.ok e2
      rw [txOuter_step e (rest.length + 1) index channel d.addr _ _ _ h0 hvc hstep]
      exact hrun
    · exact hmem
    · rw [hsent]
      have hmap : rest.map (fun d2 => readBytes
            (writeU32 e.mem (d.addr+12) (d.mode &&& 3758096383)) d2.buff d2.len)
          = rest.map (fun d2 => readBytes e.mem d2.buff d2.len) := by
        refine List.map_congr_left (fun d2 hd2 => ?_)
        obtain ⟨_, hbuf⟩ := hsd d2 hd2
        exact readBytes_writeU32_disj _ _ _ _ _ (by omega)
      rw [hmap]
      simp
    · rw [hirqs]
      simp [List.replicate_succ]
    · rw [h564r, h564b]
      simp only [List.length_cons, U32MOD]
      omega
    · intro h
      exact absurd h (List.cons_ne_nil d rest)
    · intro _
      by_cases hr0 : rest = []
      · rw [hnil hr0, h384c]
      · rw [hcons hr0, h384c, Nat.or_assoc, Nat.or_self]
    · exact hnic

/-- Claim C4, counterexample.  The descriptor at 256 satisfies the
claim's well-formedness (SOF, EOF, OWNERSHIP set, length = low 16 mode
bits, frame of 4 bytes), but it also has EOQ set and next = 0.  Because
the code continues the inner sendloop when EOQ is SET, the walk follows
next = 0, reads the all-zero memory at address 0 as a descriptor and
trips the SOF assert: the MMIO write aborts, no frame is handed to the
backend and TXGOODFRAMES is never incremented, contradicting the
claim. -/
theorem C4_counterexample :
    ar7_cpmac_write 10 cexTxEnv 0 1536 256 = Except.error TxErr.assertFail ∧
    (4026531844 : Nat) &&& 65535 = 4 ∧
    (4026531844 : Nat).testBit 31 = true ∧
    (4026531844 : Nat).testBit 30 = true ∧
    (4026531844 : Nat).testBit 29 = true ∧
    (4 : Nat) ≤ 1514 ∧
    readU32 cexTxEnv.mem 268 = 4026531844 ∧
    readU32 cexTxEnv.mem 264 = 4 ∧
    readU32 cexTxEnv.mem 256 = 0 ∧
    cexTxEnv.nic.vcBound = true := by
  refine ⟨rfl, by decide, by decide, by decide, by decide, by decide, ?_, ?_, ?_,
    by decide⟩ <;> decide

/-- Claim C4 (amended): writing a nonzero pointer to TXc_HDP naming a
well-formed descriptor chain in which additionally every descriptor has
EOQ CLEAR (chains with EOQ set follow the inverted continuation check
into unrelated memory) drains the chain before the MMIO store returns:
OWNERSHIP is cleared to 0 in every descriptor's mode word in guest
memory, one frame per descriptor is handed to the bound backend,
TXGOODFRAMES is incremented once per frame, MAC_IN_VECTOR receives
TX_INT_OR plus the channel number, and the CPMAC interrupt line (27 for
instance 0, 41 for instance 1) is pulsed. -/
theorem C4_tx_dma (e : CpmacEnv) (index c : Nat) (d : TxSpec) (rest : List TxSpec)
    (hc : c ≤ 7) (hwf : wfChain e.mem (d :: rest)) (hsep : chainSep (d :: rest))
    (hvc : e.nic.vcBound = true) (h384 : e.regs 384 < U32MOD)
    (h564 : e.regs 564 < U32MOD) :
    ∃ e2, ar7_cpmac_write ((d :: rest).length + 1) e index (1536 + 4 * c) d.addr
        = Except.ok e2 ∧
      (∀ dd ∈ d :: rest, (readU32 e2.mem (dd.addr + 12)).testBit 29 = false) ∧
      e2.sent = e.sent ++ (d :: rest).map (fun x => readBytes e.mem x.buff x.len) ∧
      e2.regs 564 = (e.regs 564 + (d :: rest).length) % U32MOD ∧
      e2.regs 384 = e.regs 384 ||| (65536 + c) ∧
      (cpmac_interrupt index, 1) ∈ e2.irqs := by
  have hoff1 : ¬ (1536 + 4 * c = 256) := by omega
  have hoff2 : ¬ (1536 + 4 * c = 268) := by omega
  have hoff3 : ¬ (1536 + 4 * c = 376) := by omega
  have hoff4 : ¬ (1536 + 4 * c = 468) := by omega
  have hoff5 : ¬ (512 ≤ 1536 + 4 * c ∧ 1536 + 4 * c ≤ 652) := by omega
  have hoff6 : 1536 ≤ 1536 + 4 * c ∧ 1536 + 4 * c ≤ 1564 := by omega
  have hdiv : (1536 + 4 * c - 1536) / 4 = c := by omega
  have hne384 : (384 : Nat) ≠ 1536 + 4 * c := by omega
  have hne564 : (564 : Nat) ≠ 1536 + 4 * c := by omega
  obtain ⟨e2, hrun, hmem, hsent, hirqs, h564r, _, hcons, _⟩ :=
    txOuter_chain (d :: rest)
      { e with regs := reg_write e.regs (1536 + 4 * c) d.addr }
      index c hwf hsep hvc
      (by show reg_write e.regs (1536 + 4 * c) d.addr 384 < U32MOD
          rw [reg_write_ne _ _ _ _ hne384]; exact h384)
      (by show reg_write e.regs (1536 + 4 * c) d.addr 564 < U32MOD
          rw [reg_write_ne _ _ _ _ hne564]; exact h564)
      hc
  simp only at hrun hmem hsent hirqs h564r hcons
  refine ⟨e2, ?_, ?_, ?_, ?_, ?_, ?_⟩
  · simp only [ar7_cpmac_write]
    rw [if_neg hoff1, if_neg hoff2, if_neg hoff3, if_neg hoff4, if_neg hoff5,
      if_pos hoff6, hdiv]
    exact hrun
  · intro dd hdd
    rw [hmem, finalMem_modes (d :: rest) e.mem hsep hwf dd hdd,
      Nat.testBit_and]
    simp +decide
  · rw [hsent]
  · rw [h564r, reg_write_ne _ _ _ _ hne564]
  · rw [hcons (List.cons_ne_nil d rest), reg_write_ne _ _ _ _ hne384]
  · rw [hirqs]
    simp [List.replicate_succ]

/-- Claim C4 witness: the one-descriptor chain at 256 (EOQ clear) with a
4-byte payload on instance 0, channel 0. -/
theorem C4_witness :
    ((0 : Nat) ≤ 7 ∧ wfChain txWitEnv.mem [txWitDesc] ∧ chainSep [txWitDesc] ∧
      txWitEnv.nic.vcBound = true ∧ txWitEnv.regs 384 < U32MOD ∧
      txWitEnv.regs 564 < U32MOD) ∧
    (∃ e2, ar7_cpmac_write ([txWitDesc].length + 1) txWitEnv 0 (1536 + 4 * 0)
        txWitDesc.addr = Except.ok e2 ∧
      (∀ dd ∈ [txWitDesc], (readU32 e2.mem (dd.addr + 12)).testBit 29 = false) ∧
      e2.sent = txWitEnv.sent
        ++ [txWitDesc].map (fun x => readBytes txWitEnv.mem x.buff x.len) ∧
      e2.regs 564 = (txWitEnv.regs 564 + [txWitDesc].length) % U32MOD ∧
      e2.regs 384 = txWitEnv.regs 384 ||| (65536 + 0) ∧
      (cpmac_interrupt 0, 1) ∈ e2.irqs) :=
  ⟨⟨by decide, by simp only [wfChain, wfDesc, chainNext]; decide,
    by simp only [chainSep, sepFrom]; decide, by decide, by decide, by decide⟩,
    C4_tx_dma txWitEnv 0 0 txWitDesc [] (by decide)
      (by simp only [wfChain, wfDesc, chainNext]; decide)
      (by simp only [chainSep, sepFrom]; decide) (by decide) (by decide) (by decide)⟩
